import Mathlib

/-!
Verification of the selector-driven extraction and filtering engine of the
Crawl4AI scraper service (`src/scraper-service/main.py`).

The embedding is shallow: the pure, deterministic core of the service is
translated into executable Lean definitions.  External collaborators (the
headless-browser fetch layer and the DOM query engine) are modelled at their
interface boundary: a parsed document is a flat, document-ordered list of
elements, each carrying its tag, stripped text, attributes, serialized HTML,
the set of CSS selectors it matches (the DOM engine's verdict), and its
parent's text.  Regex search (`re.search` with `re.IGNORECASE`) is passed in
as an abstract `search : String → String → Bool` parameter, so theorems about
the filter pipeline hold for every regex semantics.  Python behaviour that can
raise (`urllib.parse` on bracket-mismatched authorities) is modelled with
`Except`.  Strings are treated as sequences of Unicode code points, matching
Python `str` indexing and `len`.
-/

namespace Scraper

/-! ## Whitespace normalization (`' '.join(content.split())`, main.py line 565)

Python `str.split()` with no argument splits on runs of whitespace and drops
empty pieces.  The ASCII whitespace characters are modelled; the behaviour of
the definitions and all theorems below is uniform in the choice of whitespace
predicate as long as `' '` is whitespace. -/

def isPySpace (c : Char) : Bool :=
  c = ' ' || c = '\t' || c = '\n' || c = '\r' || c = '\x0b' || c = '\x0c'

/-- Core of Python `str.split()`: the accumulator holds the word currently
being read. -/
def pySplitAux (p : Char → Bool) : List Char → List Char → List (List Char)
  | [], acc => if acc = [] then [] else [acc]
  | c :: cs, acc =>
    if p c then
      if acc = [] then pySplitAux p cs [] else acc :: pySplitAux p cs []
    else
      pySplitAux p cs (acc ++ [c])

/-- Python `str.split()` (no separator): maximal runs of non-whitespace. -/
def pySplit (p : Char → Bool) (l : List Char) : List (List Char) :=
  pySplitAux p l []

/-- Python `' '.join(words)`. -/
def joinWords : List (List Char) → List Char
  | [] => []
  | w :: ws => if ws = [] then w else w ++ ' ' :: joinWords ws

/-- `content = ' '.join(content.split())` (main.py line 565). -/
def normalize_whitespace (s : String) : String :=
  ⟨joinWords (pySplit isPySpace s.data)⟩

theorem pySplitAux_good (p : Char → Bool) :
    ∀ (l acc : List Char), (∀ c ∈ acc, p c = false) →
      ∀ w ∈ pySplitAux p l acc, w ≠ [] ∧ ∀ c ∈ w, p c = false := by
  intro l
  induction l with
  | nil =>
    intro acc hacc w hw
    by_cases h : acc = []
    · simp [pySplitAux, h] at hw
    · simp [pySplitAux, h] at hw
      subst hw
      exact ⟨h, hacc⟩
  | cons c cs ih =>
    intro acc hacc w hw
    by_cases hpc : p c
    · by_cases h : acc = []
      · simp [pySplitAux, hpc, h] at hw
        exact ih [] (by simp) w hw
      · simp [pySplitAux, hpc, h] at hw
        rcases hw with hw | hw
        · subst hw; exact ⟨h, hacc⟩
        · exact ih [] (by simp) w hw
    · simp [pySplitAux, hpc] at hw
      refine ih (acc ++ [c]) ?_ w hw
      intro d hd
      rcases List.mem_append.mp hd with hd | hd
      · exact hacc d hd
      · simp at hd; subst hd; simpa using hpc

theorem pySplitAux_word (p : Char → Bool) :
    ∀ (w rest acc : List Char), (∀ c ∈ w, p c = false) →
      pySplitAux p (w ++ rest) acc = pySplitAux p rest (acc ++ w) := by
  intro w
  induction w with
  | nil => intro rest acc _; simp
  | cons c w' ih =>
    intro rest acc hw
    have hpc : p c = false := hw c (by simp)
    have : pySplitAux p ((c :: w') ++ rest) acc = pySplitAux p (w' ++ rest) (acc ++ [c]) := by
      simp [pySplitAux, hpc]
    rw [this, ih rest (acc ++ [c]) (fun d hd => hw d (by simp [hd]))]
    simp

theorem pySplit_joinWords (p : Char → Bool) (hsp : p ' ' = true) :
    ∀ ws : List (List Char),
      (∀ w ∈ ws, w ≠ [] ∧ ∀ c ∈ w, p c = false) →
      pySplit p (joinWords ws) = ws := by
  intro ws
  induction ws with
  | nil => intro _; rfl
  | cons w ws ih =>
    intro hgood
    have hw := hgood w (by simp)
    by_cases hws : ws = []
    · subst hws
      show pySplitAux p (joinWords [w]) [] = [w]
      have : joinWords [w] = w := by simp [joinWords]
      rw [this]
      have := pySplitAux_word p w [] [] hw.2
      simp at this
      rw [this]
      simp [pySplitAux, hw.1]
    · show pySplitAux p (joinWords (w :: ws)) [] = w :: ws
      have hjw : joinWords (w :: ws) = w ++ ' ' :: joinWords ws := by
        simp [joinWords, hws]
      rw [hjw]
      have := pySplitAux_word p w (' ' :: joinWords ws) [] hw.2
      simp at this
      rw [this]
      have hstep : pySplitAux p (' ' :: joinWords ws) w = w :: pySplitAux p (joinWords ws) [] := by
        simp [pySplitAux, hsp, hw.1]
      rw [hstep]
      have := ih (fun w' hw' => hgood w' (by simp [hw']))
      rw [show pySplitAux p (joinWords ws) [] = pySplit p (joinWords ws) from rfl, this]

/-! ## `urllib.parse` model (CPython 3.11 `Lib/urllib/parse.py`)

`main.py` resolves hrefs with `urljoin` (line 184) and reads domains with
`urlparse(...).netloc` (lines 210, 237).  The functions below translate the
CPython implementation: `urlsplit` (scheme detection over `scheme_chars`,
`//`-netloc splitting with the "Invalid IPv6 URL" `ValueError` on mismatched
brackets, fragment then query splitting), `urlparse` (`;`-params splitting for
`uses_params` schemes), `urlunsplit`/`urlunparse`, and `urljoin`'s
`uses_relative`/`uses_netloc` dispatch and dot-segment resolution.  Strings
are handled as `List Char`; raising is modelled with `Except`.  Two checks
that only concern non-ASCII input (`_checknetloc`'s NFKC normalization check
and `_check_bracketed_host`'s IPv6 validation) are elided: all inputs used in
theorems are ASCII with unbracketed hosts, where both checks pass or are not
reached in a way that differs from this model only on the error message. -/

/-- Characters allowed in a scheme name (`scheme_chars`). -/
def schemeChar (c : Char) : Bool :=
  c.isAlpha || c.isDigit || c = '+' || c = '-' || c = '.'

/-- `_UNSAFE_URL_BYTES_TO_REMOVE`: `urlsplit` strips tab, CR and LF. -/
def removeUnsafe (l : List Char) : List Char :=
  l.filter fun c => !(c = '\t' || c = '\r' || c = '\n')

/-- Split at the first occurrence of `sep` (Python `str.split(sep, 1)`),
`none` when `sep` does not occur. -/
def splitOnce (sep : Char) : List Char → Option (List Char × List Char)
  | [] => none
  | c :: cs =>
    if c = sep then some ([], cs)
    else
      match splitOnce sep cs with
      | none => none
      | some (pre, post) => some (c :: pre, post)

/-- Split at the last occurrence of `sep` (Python `str.rpartition`-style). -/
def splitLast (sep : Char) (l : List Char) : Option (List Char × List Char) :=
  match splitOnce sep l.reverse with
  | some (rpost, rpre) => some (rpre.reverse, rpost.reverse)
  | none => none

def usesRelative : List (List Char) :=
  ["", "ftp", "http", "gopher", "nntp", "imap", "wais", "file", "https",
   "shttp", "mms", "prospero", "rtsp", "rtspu", "sftp", "svn", "svn+ssh",
   "ws", "wss"].map String.data

def usesNetloc : List (List Char) :=
  ["", "ftp", "http", "gopher", "nntp", "telnet", "imap", "wais", "file",
   "mms", "https", "shttp", "snews", "prospero", "rtsp", "rtspu", "rsync",
   "svn", "svn+ssh", "sftp", "nfs", "git", "git+ssh", "ws", "wss"].map
    String.data

def usesParams : List (List Char) :=
  ["", "ftp", "hdl", "prospero", "http", "imap", "https", "shttp", "rtsp",
   "rtspu", "sip", "sips", "mms", "sftp", "tel"].map String.data

structure SplitResult where
  scheme : List Char
  netloc : List Char
  path : List Char
  query : List Char
  fragment : List Char
deriving DecidableEq

structure ParseResult where
  scheme : List Char
  netloc : List Char
  path : List Char
  params : List Char
  query : List Char
  fragment : List Char
deriving DecidableEq

/-- CPython `urlsplit(url, scheme)` with `allow_fragments=True`. -/
def pyUrlsplitL (url0 dscheme0 : List Char) : Except String SplitResult :=
  let url1 := removeUnsafe url0
  let dscheme := removeUnsafe dscheme0
  let schemeUrl : List Char × List Char :=
    match splitOnce ':' url1 with
    | some (pre, post) =>
      if pre ≠ [] ∧ (pre.headD ' ').isAlpha ∧ pre.all schemeChar then
        (pre.map Char.toLower, post)
      else (dscheme, url1)
    | none => (dscheme, url1)
  let scheme := schemeUrl.1
  let url2 := schemeUrl.2
  let nlSplit : Except String (List Char × List Char) :=
    match url2 with
    | '/' :: '/' :: rest =>
      let p := rest.span fun c => !(c = '/' || c = '?' || c = '#')
      if ('[' ∈ p.1 ∧ ']' ∉ p.1) ∨ (']' ∈ p.1 ∧ '[' ∉ p.1) then
        .error "Invalid IPv6 URL"
      else .ok p
    | u => .ok ([], u)
  match nlSplit with
  | .error e => .error e
  | .ok (netloc, url3) =>
    let fragSplit : List Char × List Char :=
      match splitOnce '#' url3 with
      | some (a, b) => (a, b)
      | none => (url3, [])
    let querySplit : List Char × List Char :=
      match splitOnce '?' fragSplit.1 with
      | some (a, b) => (a, b)
      | none => (fragSplit.1, [])
    .ok ⟨scheme, netloc, querySplit.1, querySplit.2, fragSplit.2⟩

/-- CPython `_splitparams`. -/
def splitparams (url : List Char) : List Char × List Char :=
  match splitLast '/' url with
  | some (pre, post) =>
    match splitOnce ';' post with
    | some (a, b) => (pre ++ '/' :: a, b)
    | none => (url, [])
  | none =>
    match splitOnce ';' url with
    | some (a, b) => (a, b)
    | none => (url, [])

/-- CPython `urlparse(url, scheme)` with `allow_fragments=True`. -/
def pyUrlparseL (url dscheme : List Char) : Except String ParseResult :=
  match pyUrlsplitL url dscheme with
  | .error e => .error e
  | .ok r =>
    if r.scheme ∈ usesParams ∧ ';' ∈ r.path then
      let p := splitparams r.path
      .ok ⟨r.scheme, r.netloc, p.1, p.2, r.query, r.fragment⟩
    else .ok ⟨r.scheme, r.netloc, r.path, [], r.query, r.fragment⟩

/-- CPython `urlunsplit`. -/
def pyUrlunsplitL (scheme netloc path query fragment : List Char) : List Char :=
  let url := path
  let url :=
    if netloc ≠ [] ∨ (scheme ≠ [] ∧ scheme ∈ usesNetloc ∧ url.take 2 ≠ ['/', '/']) then
      let url' := if url ≠ [] ∧ url.take 1 ≠ ['/'] then '/' :: url else url
      '/' :: '/' :: netloc ++ url'
    else url
  let url := if scheme ≠ [] then scheme ++ ':' :: url else url
  let url := if query ≠ [] then url ++ '?' :: query else url
  if fragment ≠ [] then url ++ '#' :: fragment else url

/-- CPython `urlunparse`. -/
def pyUrlunparseL (r : ParseResult) : List Char :=
  let path := if r.params ≠ [] then r.path ++ ';' :: r.params else r.path
  pyUrlunsplitL r.scheme r.netloc path r.query r.fragment

/-- Python `'/'.join` and the like. -/
def joinSep (sep : Char) : List (List Char) → List Char
  | [] => []
  | w :: ws => if ws = [] then w else w ++ sep :: joinSep sep ws

/-- `segments[1:-1] = filter(None, segments[1:-1])`: drop empty segments,
keeping the first and last elements unconditionally. -/
def keepLastFilter : List (List Char) → List (List Char)
  | [] => []
  | [x] => [x]
  | x :: xs => if x = [] then keepLastFilter xs else x :: keepLastFilter xs

def filterMiddle : List (List Char) → List (List Char)
  | [] => []
  | x :: xs => x :: keepLastFilter xs

/-- CPython `urljoin(base, url)` with `allow_fragments=True`. -/
def pyUrljoinL (base url : List Char) : Except String (List Char) :=
  if base = [] then .ok url
  else if url = [] then .ok base
  else
    match pyUrlparseL base [] with
    | .error e => .error e
    | .ok b =>
      match pyUrlparseL url b.scheme with
      | .error e => .error e
      | .ok u =>
        if u.scheme ≠ b.scheme ∨ u.scheme ∉ usesRelative then .ok url
        else if u.scheme ∈ usesNetloc ∧ u.netloc ≠ [] then
          .ok (pyUrlunparseL ⟨u.scheme, u.netloc, u.path, u.params, u.query, u.fragment⟩)
        else
          let netloc := if u.scheme ∈ usesNetloc then b.netloc else u.netloc
          if u.path = [] ∧ u.params = [] then
            let query := if u.query = [] then b.query else u.query
            .ok (pyUrlunparseL ⟨u.scheme, netloc, b.path, b.params, query, u.fragment⟩)
          else
            let baseParts0 := b.path.splitOn '/'
            let baseParts :=
              if baseParts0.getLastD [] ≠ [] then baseParts0.dropLast else baseParts0
            let segments :=
              if u.path.take 1 = ['/'] then u.path.splitOn '/'
              else filterMiddle (baseParts ++ u.path.splitOn '/')
            let resolved := segments.foldl
              (fun acc seg =>
                if seg = ['.', '.'] then acc.dropLast
                else if seg = ['.'] then acc
                else acc ++ [seg]) []
            let resolved :=
              if segments.getLastD [] = ['.'] ∨ segments.getLastD [] = ['.', '.'] then
                resolved ++ [[]]
              else resolved
            let rpath := joinSep '/' resolved
            let rpath := if rpath = [] then ['/'] else rpath
            .ok (pyUrlunparseL ⟨u.scheme, netloc, rpath, u.params, u.query, u.fragment⟩)

/-- `urljoin` on `String`s. -/
def pyUrljoin (base url : String) : Except String String :=
  (pyUrljoinL base.data url.data).map fun l => ⟨l⟩

/-- `urlparse(url).netloc` on `String`s (default scheme `''`). -/
def pyNetloc (url : String) : Except String String :=
  (pyUrlparseL url.data []).map fun r => ⟨r.netloc⟩

/-- The host sub-component of a netloc: strip userinfo (after the last `@`)
and the port (after the first `:`), lowercased, as in `SplitResult.hostname`.
Bracketed IPv6 host syntax is not modelled (no theorem instantiates it). -/
def hostOfNetloc (netloc : List Char) : List Char :=
  let hostinfo :=
    match splitLast '@' netloc with
    | some (_, post) => post
    | none => netloc
  let core :=
    match splitOnce ':' hostinfo with
    | some (pre, _) => pre
    | none => hostinfo
  core.map Char.toLower

theorem strMk_data (s : String) : (⟨s.data⟩ : String) = s := by
  cases s; rfl

/-! ## Document model

The DOM query engine (BeautifulSoup) is an external collaborator (spec §1,
§6): the core consumes `select`, `select_one`, `find`, `find_all`, element
text, attributes, serialization and removal.  A parsed document is modelled
as its flat, document-ordered list of elements; which CSS selectors an
element matches is recorded on the element (the DOM engine's verdict), so
`soup.select(sel)` is a filter over the list.  Nesting is not represented:
each element carries its own stripped text, serialized form, and its parent's
text as data. -/

structure Elem where
  tag : String
  /-- `element.get_text(strip=True)`. -/
  text : String
  attrs : List (String × String)
  /-- The CSS selectors this element matches, per the external DOM engine. -/
  sels : List String
  /-- `str(element)`. -/
  htmlStr : String
  /-- `element.parent.get_text(strip=True)`; `none` when there is no parent. -/
  parentText : Option String
deriving DecidableEq

/-- `element.get(name)`: `None` when the attribute is absent. -/
def getAttrOpt (e : Elem) (a : String) : Option String :=
  (e.attrs.find? fun p => p.1 == a).map Prod.snd

/-- `element.get(name, default)`. -/
def getAttrD (e : Elem) (a d : String) : String :=
  (getAttrOpt e a).getD d

/-- `soup.select(sel)` in document order. -/
def selectAll (doc : List Elem) (sel : String) : List Elem :=
  doc.filter fun e => e.sels.contains sel

/-- `soup.select_one(sel)`. -/
def selectOne (doc : List Elem) (sel : String) : Option Elem :=
  (selectAll doc sel).head?

/-- `soup.find(tag)`. -/
def findTag (doc : List Elem) (t : String) : Option Elem :=
  (doc.filter fun e => e.tag == t).head?

/-- `soup.find('meta', property=v)`. -/
def findMetaProp (doc : List Elem) (v : String) : Option Elem :=
  (doc.filter fun e => e.tag == "meta" && getAttrOpt e "property" == some v).head?

/-- `soup.find('meta', attrs={'name': v})`. -/
def findMetaName (doc : List Elem) (v : String) : Option Elem :=
  (doc.filter fun e => e.tag == "meta" && getAttrOpt e "name" == some v).head?

/-- `element.decompose()` for every match of every selector in `sels`
(main.py lines 532-535): the remaining working document. -/
def removeBySelectors (doc : List Elem) (sels : List String) : List Elem :=
  doc.filter fun e => !(sels.any fun s => e.sels.contains s)

/-! ## Request models (Pydantic, main.py lines 29-94)

Optional Pydantic fields are `Option`s; the Field defaults are the structure
defaults.  Python truthiness of an optional list (`if x:` is false for both
`None` and `[]`) is via `optList`. -/

def optList {α : Type} : Option (List α) → List α
  | none => []
  | some l => l

structure LinkSelectors where
  css : Option (List String) := none
  urlPatterns : Option (List String) := none
  textPatterns : Option (List String) := none
deriving DecidableEq

structure LinkFilters where
  minTextLength : Option Nat := some 0
  maxLinks : Option Nat := some 100
  excludePatterns : Option (List String) := none
  includeExternal : Option Bool := some false
deriving DecidableEq

/-- `matches_pattern` (main.py lines 156-160): `re.search` with
`re.IGNORECASE` is the external regex engine, abstracted as `search`. -/
def matches_pattern (search : String → String → Bool) (text : String)
    (patterns : Option (List String)) : Bool :=
  match patterns with
  | none => true
  | some [] => true
  | some ps => ps.any fun p => search p text

/-- Python `s.startswith(pre)`, over code points. -/
def pyStartsWith (s pre : String) : Bool :=
  pre.data.isPrefixOf s.data

/-- Lines 183-184: `if not href.startswith('http'): href = urljoin(base_url, href)`. -/
def resolve_href (href base_url : String) : Except String String :=
  if pyStartsWith href "http" then .ok href else pyUrljoin base_url href

/-- URL resolution as the spec's words describe it (§4.1 and claim C5): a
href that already has a scheme is returned unchanged, any other href is
joined against the base URL.  Used only to compare the spec's contract with
`resolve_href`. -/
def resolve_href_by_scheme (href base_url : String) : Except String String :=
  match pyUrlsplitL href.data [] with
  | .error e => .error e
  | .ok r => if r.scheme ≠ [] then .ok href else pyUrljoin base_url href

structure Link where
  url : String
  text : String
  elem : Elem
deriving DecidableEq

/-- The element sequence `extract_links_by_selectors` iterates (lines
167-173): concatenated CSS matches when `selectors and selectors.css` is
truthy, else `soup.find_all('a', href=True)`. -/
def selectedElements (doc : List Elem) (selectors : Option LinkSelectors) :
    List Elem :=
  match selectors with
  | some s =>
    match s.css with
    | some (c :: cs) => ((c :: cs).map (selectAll doc)).flatten
    | _ => doc.filter fun e => e.tag == "a" && (getAttrOpt e "href").isSome
  | none => doc.filter fun e => e.tag == "a" && (getAttrOpt e "href").isSome

/-- The loop of `extract_links_by_selectors` (lines 175-195): skip missing or
empty hrefs, resolve, deduplicate by resolved URL (`seen`), first occurrence
wins. -/
def extractLinksAux (base_url : String) :
    List Elem → List String → Except String (List Link)
  | [], _ => .ok []
  | e :: es, seen =>
    match getAttrOpt e "href" with
    | none => extractLinksAux base_url es seen
    | some h =>
      if h = "" then extractLinksAux base_url es seen
      else
        match resolve_href h base_url with
        | .error err => .error err
        | .ok url =>
          if url ∈ seen then extractLinksAux base_url es seen
          else
            match extractLinksAux base_url es (url :: seen) with
            | .error err => .error err
            | .ok rest => .ok (⟨url, e.text, e⟩ :: rest)

/-- `extract_links_by_selectors` (main.py lines 162-197). -/
def extract_links_by_selectors (doc : List Elem)
    (selectors : Option LinkSelectors) (base_url : String) :
    Except String (List Link) :=
  extractLinksAux base_url (selectedElements doc selectors) []

/-- `filters.minTextLength or 0`. -/
def effMinTextLength (f : LinkFilters) : Nat :=
  match f.minTextLength with
  | none => 0
  | some n => n

/-- `filters.maxLinks or 100` (`0` is falsy in Python, hence also `100`). -/
def effMaxLinks (f : LinkFilters) : Nat :=
  match f.maxLinks with
  | none => 100
  | some n => if n = 0 then 100 else n

/-- The per-candidate rule chain of `apply_link_filters` (lines 212-239):
text length, URL patterns, text patterns, exclude patterns, external domain.
`.ok false` = `continue`, `.ok true` = accept; `urlparse` on the candidate
URL can raise. -/
def link_passes (search : String → String → Bool) (f : LinkFilters)
    (selectors : Option LinkSelectors) (base_domain : String) (l : Link) :
    Except String Bool :=
  if l.text.length < effMinTextLength f then .ok false
  else if (match selectors with
           | some s => !(optList s.urlPatterns).isEmpty &&
               !matches_pattern search l.url s.urlPatterns
           | none => false) then .ok false
  else if (match selectors with
           | some s => !(optList s.textPatterns).isEmpty &&
               !matches_pattern search l.text s.textPatterns
           | none => false) then .ok false
  else if !(optList f.excludePatterns).isEmpty &&
      matches_pattern search l.url f.excludePatterns then .ok false
  else if f.includeExternal = some true then .ok true
  else
    match pyNetloc l.url with
    | .error e => .error e
    | .ok d => .ok (d == base_domain)

/-- The accumulation loop of `apply_link_filters` (lines 212-245): `n` is
`len(filtered)` so far; after an accept, stop as soon as
`len(filtered) >= maxLinks`. -/
def applyFiltersAux (search : String → String → Bool) (f : LinkFilters)
    (selectors : Option LinkSelectors) (base_domain : String) :
    List Link → Nat → Except String (List Link)
  | [], _ => .ok []
  | l :: ls, n =>
    match link_passes search f selectors base_domain l with
    | .error e => .error e
    | .ok false => applyFiltersAux search f selectors base_domain ls n
    | .ok true =>
      if n + 1 ≥ effMaxLinks f then .ok [l]
      else
        match applyFiltersAux search f selectors base_domain ls (n + 1) with
        | .error e => .error e
        | .ok rest => .ok (l :: rest)

/-- `apply_link_filters` (main.py lines 199-247). -/
def apply_link_filters (search : String → String → Bool) (links : List Link)
    (filters : Option LinkFilters) (selectors : Option LinkSelectors)
    (base_url : String) : Except String (List Link) :=
  let f := filters.getD {}
  match pyNetloc base_url with
  | .error e => .error e
  | .ok base_domain => applyFiltersAux search f selectors base_domain links 0

structure DiscoveredLink where
  url : String
  text : String
  context : String
  metadata : List (String × String)
deriving DecidableEq

/-- `parent.get_text(strip=True)[:200] if parent else ""` (line 375). -/
def mkContext (e : Elem) : String :=
  match e.parentText with
  | some t => ⟨t.data.take 200⟩
  | none => ""

/-- `"custom" if request.selectors and request.selectors.css else "default"`. -/
def cssTruthy (selectors : Option LinkSelectors) : Bool :=
  match selectors with
  | some s => !(optList s.css).isEmpty
  | none => false

/-- Lines 371-384: one `DiscoveredLink` per filtered link; empty link text
becomes `'[No title]'` (`link['text'] or '[No title]'`). -/
def buildDiscovered (selectors : Option LinkSelectors) (l : Link) :
    DiscoveredLink :=
  ⟨l.url, if l.text = "" then "[No title]" else l.text, mkContext l.elem,
   [("selector", if cssTruthy selectors then "custom" else "default")]⟩

/-- The post-fetch part of the `/v1/discover` handler (lines 358-398):
extract links, filter, and build the `DiscoveredLink` list. -/
def discover_links (search : String → String → Bool) (doc : List Elem)
    (selectors : Option LinkSelectors) (filters : Option LinkFilters)
    (base_url : String) : Except String (List DiscoveredLink) :=
  match extract_links_by_selectors doc selectors base_url with
  | .error e => .error e
  | .ok links =>
    match apply_link_filters search links filters selectors base_url with
    | .error e => .error e
    | .ok filtered => .ok (filtered.map (buildDiscovered selectors))

/-- `element.get('href')` seen as "does this element contribute a resolved
URL": `none` for a missing or empty href and for hrefs whose resolution
raises. -/
def resolvesToOpt (base_url : String) (e : Elem) : Option String :=
  match getAttrOpt e "href" with
  | none => none
  | some h =>
    if h = "" then none
    else
      match resolve_href h base_url with
      | .error _ => none
      | .ok url => some url

/-- The first element of `els` whose href resolves to `u`. -/
def firstResolving (els : List Elem) (base_url : String) (u : String) :
    Option Elem :=
  els.find? fun e => resolvesToOpt base_url e == some u

/-! ## Scrape request models (main.py lines 58-94) -/

structure TitleExtraction where
  selectors : Option (List String) := none
  fallbackToMeta : Option Bool := some true
deriving DecidableEq

structure ContentExtraction where
  selectors : Option (List String) := none
  /-- `Literal["html", "markdown", "text"]`, Field default `"markdown"`. -/
  format : Option String := some "markdown"
  removeSelectors : Option (List String) := none
deriving DecidableEq

structure CustomField where
  name : String
  selector : String
  «attribute» : Option String := none
deriving DecidableEq

structure ExtractConfig where
  title : Option TitleExtraction := none
  content : Option ContentExtraction := none
  metadata : Option (List String) := none
  customFields : Option (List CustomField) := none
deriving DecidableEq

/-- `ProcessingConfig` with the Field defaults applied (lines 82-87). -/
structure ProcessingConfig where
  minContentLength : Nat := 200
  maxContentLength : Nat := 40000
  stripHtml : Bool := false
  normalizeWhitespace : Bool := true
deriving DecidableEq

/-- Python truthiness of an `Optional[bool]`: only `True` is truthy. -/
def pyTruthy (b : Option Bool) : Bool := b == some true

/-! ## Title and content extraction (`/v1/scrape`, main.py lines 482-559) -/

/-- The selector loops of the scrape handler (title lines 490-496, content
lines 538-550): the first selector whose `select_one` finds an element wins,
regardless of the element's text. -/
def selLoop (doc : List Elem) : List String → Option (String × Elem)
  | [] => none
  | s :: ss =>
    match selectOne doc s with
    | some e => some (s, e)
    | none => selLoop doc ss

/-- The fallback candidate list `[soup.find('h1'),
soup.find('meta', property='og:title'), soup.find('title')]`. -/
def titleCandidates (doc : List Elem) : List (Option Elem) :=
  [findTag doc "h1", findMetaProp doc "og:title", findTag doc "title"]

/-- The meta-fallback loop (lines 500-512 and 515-522): each present
candidate overwrites `title` (with its `content` attribute for meta tags,
else its text); the loop breaks, reporting the candidate's tag, as soon as
the resulting title is non-empty. -/
def titleFallbackLoop : List (Option Elem) → Option String →
    Option String × Option String
  | [], t => (t, none)
  | none :: cs, t => titleFallbackLoop cs t
  | some e :: cs, _t =>
    let t' := if e.tag = "meta" then getAttrD e "content" "" else e.text
    if t' ≠ "" then (some t', some e.tag) else titleFallbackLoop cs (some t')

/-- Title extraction (lines 484-522): returns the title and the value of
`extraction_method` after the title phase. -/
def extract_title (doc : List Elem) (cfg : Option TitleExtraction) :
    Option String × String :=
  match cfg with
  | none => ((titleFallbackLoop (titleCandidates doc) none).1, "default")
  | some t =>
    let r : Option String × String :=
      match t.selectors with
      | some (s₀ :: ss) =>
        match selLoop doc (s₀ :: ss) with
        | some (s, e) => (some e.text, "css:" ++ s)
        | none => (none, "default")
      | _ => (none, "default")
    if (r.1 = none ∨ r.1 = some "") ∧ pyTruthy t.fallbackToMeta then
      match titleFallbackLoop (titleCandidates doc) r.1 with
      | (t', some tag) => (t', "meta:" ++ tag)
      | (t', none) => (t', r.2)
    else r

/-- `request.extract.content.format or "markdown"`. -/
def effFormat (c : ContentExtraction) : String :=
  match c.format with
  | none => "markdown"
  | some f => if f = "" then "markdown" else f

/-- `soup.get_text(strip=True)` over the whole document in the flat model:
the elements' stripped texts concatenated. -/
def docText (doc : List Elem) : String :=
  String.join (doc.map (·.text))

structure ScrapedData where
  title : Option String
  content : String
  contentLength : Nat
  format : String
  metadata : Option (List (String × String))
  customFields : Option (List (String × String))
deriving DecidableEq

structure ScrapeOk where
  data : ScrapedData
  extractionMethod : String
deriving DecidableEq

/-- The validation failure detail (line 578). -/
def insufficientMsg (observed minimum : Nat) : String :=
  "Insufficient content extracted (" ++ toString observed ++
    " chars, minimum " ++ toString minimum ++ ")"

/-- `content_format` after lines 526-529: `"markdown"` unless a content
configuration overrides it. -/
def contentFormat : Option ContentExtraction → String
  | some c => effFormat c
  | none => "markdown"

/-- The working document after the `removeSelectors` removal of lines
531-535 (`if request.extract.content.removeSelectors:` — an empty list is
falsy and skips the loop). -/
def workingDoc (doc : List Elem) : Option ContentExtraction → List Elem
  | some c =>
    if (optList c.removeSelectors).isEmpty then doc
    else removeBySelectors doc (optList c.removeSelectors)
  | none => doc

/-- The content-selector loop of lines 537-550 over the working document:
`(selector, element)` of the first selector with a `select_one` match. -/
def contentSelMatch (doc2 : List Elem) : Option ContentExtraction →
    Option (String × Elem)
  | some c =>
    match c.selectors with
    | some (s :: ss) => selLoop doc2 (s :: ss)
    | _ => none
  | none => none

/-- The content string before processing (lines 524-559): the matched
element rendered per format — `html` serializes the subtree, `text` takes
its stripped text, `markdown` takes the whole-page rendered markdown from
the fetch step — and otherwise (no match, or a falsy empty string, since
line 553 tests `if not content:`) the format's whole-page default. -/
def rawContent (doc2 : List Elem) (ccfg : Option ContentExtraction)
    (raw_markdown raw_html : String) : String :=
  let fmt := contentFormat ccfg
  let contentOpt : Option String :=
    match contentSelMatch doc2 ccfg with
    | some (_, e) =>
      some (if fmt = "html" then e.htmlStr
            else if fmt = "text" then e.text
            else raw_markdown)
    | none => none
  let dflt :=
    if fmt = "markdown" then raw_markdown
    else if fmt = "html" then raw_html
    else docText doc2
  match contentOpt with
  | some c => if c = "" then dflt else c
  | none => dflt

/-- Content processing (lines 561-572): optional whitespace normalization,
optional HTML stripping via the external parser (`strip_text`), truncation
to `maxContentLength` code points with a `'...'` marker appended. -/
def process_content (content : String) (content_format : String)
    (strip_text : String → String) (p : ProcessingConfig) : String :=
  let c₁ := if p.normalizeWhitespace then normalize_whitespace content else content
  let c₂ := if p.stripHtml && !(content_format == "text") then strip_text c₁ else c₁
  if c₂.length > p.maxContentLength then
    (⟨c₂.data.take p.maxContentLength⟩ : String) ++ "..."
  else c₂

/-- Metadata extraction (lines 581-587): for each requested name, the first
`meta` tag with that `name` attribute, else the first `meta` tag with the
`og:`-prefixed `property`; absent tags are omitted.  Kept as an association
list in insertion order (a Python dict; a duplicate requested name would
appear once there and twice here, with the same value). -/
def extract_metadata (doc2 : List Elem) (names : List String) :
    List (String × String) :=
  names.filterMap fun name =>
    match findMetaName doc2 name with
    | some mt => some (name, getAttrD mt "content" "")
    | none =>
      match findMetaProp doc2 ("og:" ++ name) with
      | some mt => some (name, getAttrD mt "content" "")
      | none => none

/-- Custom-field extraction (lines 589-598): one `select_one` per field;
`if field.attribute:` is Python truthiness, so an empty attribute name falls
back to the element text; absent matches are omitted. -/
def extract_custom_fields (doc2 : List Elem) (fields : List CustomField) :
    List (String × String) :=
  fields.filterMap fun field =>
    match selectOne doc2 field.selector with
    | some e =>
      some (field.name,
        match field.«attribute» with
        | some a => if a = "" then e.text else getAttrD e a ""
        | none => e.text)
    | none => none

/-- The post-fetch part of the `/v1/scrape` handler (main.py lines 482-614):
title extraction from the parsed document, `removeSelectors` removal,
content extraction, processing, minimum-length validation (the only
`HTTPException` this region raises, modelled as `.error`), then metadata and
custom-field extraction from the working (post-removal) document.
`raw_markdown` and `raw_html` are `crawl_result.markdown.raw_markdown` and
`crawl_result.html` from the fetch collaborator; `strip_text` is the
external `BeautifulSoup(content, 'html.parser').get_text(strip=True)`
re-parse of line 568. -/
def scrape_content (doc : List Elem) (raw_markdown raw_html : String)
    (strip_text : String → String) (extract : Option ExtractConfig)
    (processing : Option ProcessingConfig) : Except String ScrapeOk :=
  let tm := extract_title doc (extract.bind (·.title))
  let ccfg := extract.bind (·.content)
  let content_format := contentFormat ccfg
  let doc2 := workingDoc doc ccfg
  let method :=
    match contentSelMatch doc2 ccfg with
    | some (s, _) => "css:" ++ s
    | none => tm.2
  let p := processing.getD {}
  let c₃ := process_content (rawContent doc2 ccfg raw_markdown raw_html)
    content_format strip_text p
  if c₃.length < p.minContentLength then
    .error (insufficientMsg c₃.length p.minContentLength)
  else
    let md :=
      match extract with
      | some ex => extract_metadata doc2 (optList ex.metadata)
      | none => []
    let cf :=
      match extract with
      | some ex => extract_custom_fields doc2 (optList ex.customFields)
      | none => []
    .ok ⟨⟨tm.1, c₃, c₃.length, content_format,
          if md.isEmpty then none else some md,
          if cf.isEmpty then none else some cf⟩, method⟩

/-! ## Concrete fixtures used by the claim theorems and witnesses -/

def aElem1 : Elem := ⟨"a", "", [("href", "/a")], [], "", some "ctx1"⟩

def aElem2 : Elem := ⟨"a", "X", [("href", "/a")], [], "", some "ctx2"⟩

def aElemT1 : Elem := ⟨"a", "t1", [("href", "/1")], [], "", none⟩

def aElemT2 : Elem := ⟨"a", "t2", [("href", "/2")], [], "", none⟩

def linkT1 : Link := ⟨"https://ex.com/1", "t1", aElemT1⟩

def linkT2 : Link := ⟨"https://ex.com/2", "t2", aElemT2⟩

def capFilters : LinkFilters := ⟨some 0, some 1, none, some false⟩

def selEmptyElem : Elem := ⟨"div", "", [], ["s1"], "", none⟩

def selGoodElem : Elem := ⟨"div", "Good", [], ["s2"], "", none⟩

def h1Elem : Elem := ⟨"h1", "Heading", [], [], "", none⟩

def titleDoc : List Elem := [selEmptyElem, selGoodElem, h1Elem]

def adElem : Elem := ⟨"div", "BUY NOW", [], [".ad"], "", none⟩

def adContentCfg : ContentExtraction := ⟨none, some "markdown", some [".ad"]⟩

def adExtract : ExtractConfig := ⟨none, some adContentCfg, none, none⟩

def freePC : ProcessingConfig := ⟨0, 40000, false, false⟩

def articleElem : Elem :=
  ⟨"article", "Body text", [], ["article"], "<article>Body text</article>", none⟩

def mdContentCfg : ContentExtraction := ⟨some ["article"], some "markdown", none⟩

def mdExtract : ExtractConfig := ⟨none, some mdContentCfg, none, none⟩

def pc199 : ProcessingConfig := ⟨200, 40000, false, false⟩

def truncPC : ProcessingConfig := ⟨0, 100, false, false⟩

def str199 : String := ⟨List.replicate 199 'a'⟩

def str200 : String := ⟨List.replicate 200 'a'⟩

def str150 : String := ⟨List.replicate 150 'a'⟩

def bigStoryElem : Elem := ⟨"a", "Big Story", [("href", "/article/42")], [], "", none⟩

def otherElem : Elem :=
  ⟨"a", "Other", [("href", "https://other.example/article/1")], [], "", none⟩

def newsDoc : List Elem := [bigStoryElem, otherElem]

def newsDLink : DiscoveredLink :=
  ⟨"https://news.example/article/42", "Big Story", "", [("selector", "default")]⟩

end Scraper

namespace Scraper

/-! ## Lemmas about the link filter pipeline -/

theorem applyFiltersAux_nil (search : String → String → Bool) (f : LinkFilters)
    (selectors : Option LinkSelectors) (bd : String) (n : Nat) :
    applyFiltersAux search f selectors bd [] n = .ok [] := rfl

theorem applyFiltersAux_cons_err {search : String → String → Bool}
    {f : LinkFilters} {selectors : Option LinkSelectors} {bd : String}
    {l : Link} {e : String} (ls : List Link) (n : Nat)
    (h : link_passes search f selectors bd l = .error e) :
    applyFiltersAux search f selectors bd (l :: ls) n = .error e := by
  simp only [applyFiltersAux]
  rw [h]

theorem applyFiltersAux_cons_skip {search : String → String → Bool}
    {f : LinkFilters} {selectors : Option LinkSelectors} {bd : String}
    {l : Link} (ls : List Link) (n : Nat)
    (h : link_passes search f selectors bd l = .ok false) :
    applyFiltersAux search f selectors bd (l :: ls) n =
      applyFiltersAux search f selectors bd ls n := by
  simp only [applyFiltersAux]
  rw [h]

theorem applyFiltersAux_cons_cap {search : String → String → Bool}
    {f : LinkFilters} {selectors : Option LinkSelectors} {bd : String}
    {l : Link} (ls : List Link) {n : Nat}
    (h : link_passes search f selectors bd l = .ok true)
    (hc : n + 1 ≥ effMaxLinks f) :
    applyFiltersAux search f selectors bd (l :: ls) n = .ok [l] := by
  simp only [applyFiltersAux]
  rw [h, if_pos hc]

theorem applyFiltersAux_cons_accept {search : String → String → Bool}
    {f : LinkFilters} {selectors : Option LinkSelectors} {bd : String}
    {l : Link} (ls : List Link) {n : Nat}
    (h : link_passes search f selectors bd l = .ok true)
    (hc : ¬n + 1 ≥ effMaxLinks f) :
    applyFiltersAux search f selectors bd (l :: ls) n =
      match applyFiltersAux search f selectors bd ls (n + 1) with
      | .error e => .error e
      | .ok rest => .ok (l :: rest) := by
  simp only [applyFiltersAux]
  rw [h, if_neg hc]

theorem applyFiltersAux_length_le (search : String → String → Bool)
    (f : LinkFilters) (selectors : Option LinkSelectors) (bd : String) :
    ∀ (ls : List Link) (n : Nat), n < effMaxLinks f →
      ∀ r, applyFiltersAux search f selectors bd ls n = .ok r →
        n + r.length ≤ effMaxLinks f := by
  intro ls
  induction ls with
  | nil =>
    intro n hn r hr
    rw [applyFiltersAux_nil] at hr
    cases hr
    simpa using Nat.le_of_lt hn
  | cons l ls ih =>
    intro n hn r hr
    cases hpass : link_passes search f selectors bd l with
    | error e => rw [applyFiltersAux_cons_err ls n hpass] at hr; cases hr
    | ok b =>
      cases b with
      | false =>
        rw [applyFiltersAux_cons_skip ls n hpass] at hr
        exact ih n hn r hr
      | true =>
        by_cases hc : n + 1 ≥ effMaxLinks f
        · rw [applyFiltersAux_cons_cap ls hpass hc] at hr
          cases hr
          simpa using hn
        · rw [applyFiltersAux_cons_accept ls hpass hc] at hr
          cases hrec : applyFiltersAux search f selectors bd ls (n + 1) with
          | error e => rw [hrec] at hr; cases hr
          | ok rest =>
            rw [hrec] at hr
            cases hr
            have := ih (n + 1) (by omega) rest hrec
            simp only [List.length_cons]
            omega

theorem applyFiltersAux_append (search : String → String → Bool)
    (f : LinkFilters) (selectors : Option LinkSelectors) (bd : String) :
    ∀ (l1 : List Link) (n : Nat) (r : List Link),
      applyFiltersAux search f selectors bd l1 n = .ok r →
      n + r.length = effMaxLinks f → n < effMaxLinks f →
      ∀ l2, applyFiltersAux search f selectors bd (l1 ++ l2) n = .ok r := by
  intro l1
  induction l1 with
  | nil =>
    intro n r hr hlen hn l2
    rw [applyFiltersAux_nil] at hr
    cases hr
    simp at hlen
    omega
  | cons l ls ih =>
    intro n r hr hlen hn l2
    rw [List.cons_append]
    cases hpass : link_passes search f selectors bd l with
    | error e => rw [applyFiltersAux_cons_err ls n hpass] at hr; cases hr
    | ok b =>
      cases b with
      | false =>
        rw [applyFiltersAux_cons_skip ls n hpass] at hr
        rw [applyFiltersAux_cons_skip (ls ++ l2) n hpass]
        exact ih n r hr hlen hn l2
      | true =>
        by_cases hc : n + 1 ≥ effMaxLinks f
        · rw [applyFiltersAux_cons_cap ls hpass hc] at hr
          rw [applyFiltersAux_cons_cap (ls ++ l2) hpass hc]
          exact hr
        · rw [applyFiltersAux_cons_accept ls hpass hc] at hr
          rw [applyFiltersAux_cons_accept (ls ++ l2) hpass hc]
          cases hrec : applyFiltersAux search f selectors bd ls (n + 1) with
          | error e => rw [hrec] at hr; cases hr
          | ok rest =>
            rw [hrec] at hr
            cases hr
            have : applyFiltersAux search f selectors bd (ls ++ l2) (n + 1) = .ok rest := by
              refine ih (n + 1) rest hrec ?_ (by omega) l2
              simp only [List.length_cons] at hlen
              omega
            rw [this]

end Scraper

/-- C2: for every candidate link list and every `maxLinks = k` with
`1 ≤ k ≤ 1000`, `apply_link_filters` returns at most `k` links, and once the
`k`-th link has been accepted the remaining candidates do not influence the
result: appending further candidates after a run that filled the cap leaves
the output unchanged (hard cap with short-circuit, not sort-then-truncate). -/
theorem C2_max_links_cap (search : String → String → Bool)
    (links l2 : List Scraper.Link) (f : Scraper.LinkFilters)
    (selectors : Option Scraper.LinkSelectors) (base_url : String) (k : Nat)
    (hk : f.maxLinks = some k) (hk1 : 1 ≤ k) (hk2 : k ≤ 1000)
    (r : List Scraper.Link)
    (hr : Scraper.apply_link_filters search links (some f) selectors base_url = .ok r) :
    r.length ≤ k ∧
      (r.length = k →
        Scraper.apply_link_filters search (links ++ l2) (some f) selectors base_url = .ok r) := by
  have heff : Scraper.effMaxLinks f = k := by
    simp only [Scraper.effMaxLinks, hk]
    split <;> omega
  unfold Scraper.apply_link_filters at hr ⊢
  simp only [Option.getD_some] at hr ⊢
  cases hb : Scraper.pyNetloc base_url with
  | error e => rw [hb] at hr; cases hr
  | ok bd =>
    rw [hb] at hr
    constructor
    · have := Scraper.applyFiltersAux_length_le search f selectors bd links 0
        (by omega) r hr
      omega
    · intro hlen
      exact Scraper.applyFiltersAux_append search f selectors bd links 0 r hr
        (by omega) (by omega) l2

/-- Witness for C2 at a concrete input: two acceptable candidates, cap 1. -/
theorem C2_max_links_cap_witness :
    ([Scraper.linkT1] : List Scraper.Link).length ≤ 1 ∧
      (([Scraper.linkT1] : List Scraper.Link).length = 1 →
        Scraper.apply_link_filters (fun _ _ => true)
          ([Scraper.linkT1, Scraper.linkT2] ++ [Scraper.linkT2])
          (some Scraper.capFilters) none "https://ex.com/" = .ok [Scraper.linkT1]) :=
  C2_max_links_cap (fun _ _ => true) [Scraper.linkT1, Scraper.linkT2]
    [Scraper.linkT2] Scraper.capFilters none "https://ex.com/" 1 rfl
    (by decide) (by decide) [Scraper.linkT1] rfl

namespace Scraper

theorem strData_ne_nil {s : String} (h : s ≠ "") : s.data ≠ [] := by
  intro hd
  apply h
  cases s with
  | mk d =>
    have hd' : d = [] := hd
    subst hd'
    rfl

end Scraper

/-- C5 (amended): a href is returned unchanged by link URL resolution iff it
starts with the four characters `"http"` — whether or not it has a scheme;
every other href, a scheme'd one like `mailto:` included, is joined against
the base URL with `urljoin`, which itself returns any href whose parsed
scheme differs from the base URL's scheme unchanged (so common cross-scheme
absolute references still come back unchanged); resolution can raise (an
"Invalid IPv6 URL" error) on bracket-mismatched authorities. -/
theorem C5_amended (href base_url : String) :
    (Scraper.pyStartsWith href "http" = true →
      Scraper.resolve_href href base_url = .ok href) ∧
    (Scraper.pyStartsWith href "http" = false → base_url ≠ "" → href ≠ "" →
      ∀ b u, Scraper.pyUrlparseL base_url.data [] = .ok b →
        Scraper.pyUrlparseL href.data b.scheme = .ok u →
        u.scheme ≠ b.scheme →
        Scraper.resolve_href href base_url = .ok href) := by
  constructor
  · intro hsw
    simp [Scraper.resolve_href, hsw]
  · intro hsw hb hh b u hpb hpu hne
    have hbd : base_url.data ≠ [] := Scraper.strData_ne_nil hb
    have hhd : href.data ≠ [] := Scraper.strData_ne_nil hh
    simp only [Scraper.resolve_href, hsw, Bool.false_eq_true, if_false]
    unfold Scraper.pyUrljoin Scraper.pyUrljoinL
    simp only [if_neg hbd, if_neg hhd, hpb, hpu, if_pos (Or.inl hne), Except.map,
      Scraper.strMk_data]

/-- Witness for the amended C5: an `http`-prefixed href is returned
unchanged, and a `mailto:` href passes through `urljoin` unchanged. -/
theorem C5_amended_witness :
    Scraper.resolve_href "https://x/y" "https://ex.com/a" = .ok "https://x/y" ∧
    Scraper.resolve_href "mailto:u@v" "https://ex.com/a" = .ok "mailto:u@v" :=
  ⟨(C5_amended "https://x/y" "https://ex.com/a").1 rfl,
   (C5_amended "mailto:u@v" "https://ex.com/a").2 rfl (by decide) (by decide)
     ⟨"https".data, "ex.com".data, "/a".data, [], [], []⟩
     ⟨"mailto".data, [], "u@v".data, [], [], []⟩ rfl rfl (by decide)⟩

/-- C5 counterexample to the claim as stated: the schemeless relative href
`"http.html"` is *not* joined against the base URL (the code tests the
literal prefix `'http'`, not the presence of a scheme), and resolution *can*
raise, on a bracket-mismatched authority. -/
theorem C5_counterexample :
    Scraper.resolve_href "http.html" "https://news.example/section" =
      .ok "http.html" ∧
    Scraper.resolve_href_by_scheme "http.html" "https://news.example/section" =
      .ok "https://news.example/http.html" ∧
    ("http.html" : String) ≠ "https://news.example/http.html" ∧
    Scraper.resolve_href "//[x" "https://news.example/section" =
      .error "Invalid IPv6 URL" :=
  ⟨by rfl, by rfl, by decide, by rfl⟩

namespace Scraper

theorem link_passes_external {search : String → String → Bool}
    {f : LinkFilters} {selectors : Option LinkSelectors} {bd : String}
    {l : Link} (hext : ¬f.includeExternal = some true)
    (h : link_passes search f selectors bd l = .ok true) :
    pyNetloc l.url = .ok bd := by
  unfold link_passes at h
  split_ifs at h with h₁ h₂ h₃ h₄
  · simp at h
  · simp at h
  · simp at h
  · simp at h
  · cases hnet : pyNetloc l.url with
    | error e => rw [hnet] at h; simp at h
    | ok d =>
      rw [hnet] at h
      have hd : (d == bd) = true := Except.ok.inj h
      exact congrArg Except.ok (eq_of_beq hd)

theorem applyFiltersAux_mem (search : String → String → Bool)
    (f : LinkFilters) (selectors : Option LinkSelectors) (bd : String) :
    ∀ (ls : List Link) (n : Nat) (r : List Link),
      applyFiltersAux search f selectors bd ls n = .ok r →
      ∀ l ∈ r, link_passes search f selectors bd l = .ok true := by
  intro ls
  induction ls with
  | nil =>
    intro n r hr l hl
    rw [applyFiltersAux_nil] at hr
    cases hr
    cases hl
  | cons l₀ ls ih =>
    intro n r hr l hl
    cases hpass : link_passes search f selectors bd l₀ with
    | error e => rw [applyFiltersAux_cons_err ls n hpass] at hr; cases hr
    | ok b =>
      cases b with
      | false =>
        rw [applyFiltersAux_cons_skip ls n hpass] at hr
        exact ih n r hr l hl
      | true =>
        by_cases hc : n + 1 ≥ effMaxLinks f
        · rw [applyFiltersAux_cons_cap ls hpass hc] at hr
          cases hr
          rcases hl with _ | ⟨_, h⟩
          · exact hpass
          · cases h
        · rw [applyFiltersAux_cons_accept ls hpass hc] at hr
          cases hrec : applyFiltersAux search f selectors bd ls (n + 1) with
          | error e => rw [hrec] at hr; cases hr
          | ok rest =>
            rw [hrec] at hr
            cases hr
            rcases hl with _ | ⟨_, hl⟩
            · exact hpass
            · exact ih (n + 1) rest hrec l hl

end Scraper

namespace Scraper

/-! ## Lemmas about link extraction and deduplication -/

theorem extractLinksAux_cons_noHref {base_url : String} {e : Elem}
    (es : List Elem) (seen : List String) (h : getAttrOpt e "href" = none) :
    extractLinksAux base_url (e :: es) seen = extractLinksAux base_url es seen := by
  simp only [extractLinksAux]
  rw [h]

theorem extractLinksAux_cons_emptyHref {base_url : String} {e : Elem}
    (es : List Elem) (seen : List String) (h : getAttrOpt e "href" = some "") :
    extractLinksAux base_url (e :: es) seen = extractLinksAux base_url es seen := by
  simp [extractLinksAux, h]

theorem extractLinksAux_cons_resErr {base_url h err : String} {e : Elem}
    (es : List Elem) (seen : List String) (hh : getAttrOpt e "href" = some h)
    (hne : ¬h = "") (hres : resolve_href h base_url = .error err) :
    extractLinksAux base_url (e :: es) seen = .error err := by
  simp only [extractLinksAux, hh, hne, hres, if_false]

theorem extractLinksAux_cons_seen {base_url h url : String} {e : Elem}
    (es : List Elem) (seen : List String) (hh : getAttrOpt e "href" = some h)
    (hne : ¬h = "") (hres : resolve_href h base_url = .ok url)
    (hseen : url ∈ seen) :
    extractLinksAux base_url (e :: es) seen = extractLinksAux base_url es seen := by
  simp only [extractLinksAux, hh, hne, hres, if_false, if_pos hseen]

theorem extractLinksAux_cons_new {base_url h url : String} {e : Elem}
    (es : List Elem) (seen : List String) (hh : getAttrOpt e "href" = some h)
    (hne : ¬h = "") (hres : resolve_href h base_url = .ok url)
    (hseen : url ∉ seen) :
    extractLinksAux base_url (e :: es) seen =
      match extractLinksAux base_url es (url :: seen) with
      | .error err => .error err
      | .ok rest => .ok (⟨url, e.text, e⟩ :: rest) := by
  simp only [extractLinksAux, hh, hne, hres, if_false, if_neg hseen]

/-- The extraction loop deduplicates by resolved URL, first occurrence wins:
in a successful run, the produced URLs are pairwise distinct and every
produced link carries the text and element of the first element resolving to
its URL. -/
theorem extractLinksAux_spec (base_url : String) :
    ∀ (els : List Elem) (seen : List String) (r : List Link),
      extractLinksAux base_url els seen = .ok r →
      (∀ l ∈ r, l.url ∉ seen ∧
        ∃ e, firstResolving els base_url l.url = some e ∧
          l.text = e.text ∧ l.elem = e) ∧
      (r.map Link.url).Nodup := by
  intro els
  induction els with
  | nil =>
    intro seen r hr
    cases hr
    exact ⟨by simp, by simp⟩
  | cons e es ih =>
    intro seen r hr
    cases hhref : getAttrOpt e "href" with
    | none =>
      rw [extractLinksAux_cons_noHref es seen hhref] at hr
      obtain ⟨h1, h2⟩ := ih seen r hr
      refine ⟨fun l hl => ?_, h2⟩
      obtain ⟨hls, e', he', ht, hel⟩ := h1 l hl
      refine ⟨hls, e', ?_, ht, hel⟩
      unfold firstResolving at he' ⊢
      rw [List.find?_cons_of_neg _ (by simp [resolvesToOpt, hhref])]
      exact he'
    | some h =>
      by_cases hne : h = ""
      · subst hne
        rw [extractLinksAux_cons_emptyHref es seen hhref] at hr
        obtain ⟨h1, h2⟩ := ih seen r hr
        refine ⟨fun l hl => ?_, h2⟩
        obtain ⟨hls, e', he', ht, hel⟩ := h1 l hl
        refine ⟨hls, e', ?_, ht, hel⟩
        unfold firstResolving at he' ⊢
        rw [List.find?_cons_of_neg _ (by simp [resolvesToOpt, hhref])]
        exact he'
      · cases hres : resolve_href h base_url with
        | error err =>
          rw [extractLinksAux_cons_resErr es seen hhref hne hres] at hr
          cases hr
        | ok url =>
          by_cases hseen : url ∈ seen
          · rw [extractLinksAux_cons_seen es seen hhref hne hres hseen] at hr
            obtain ⟨h1, h2⟩ := ih seen r hr
            refine ⟨fun l hl => ?_, h2⟩
            obtain ⟨hls, e', he', ht, hel⟩ := h1 l hl
            have hlu : ¬url = l.url := fun hq => hls (hq ▸ hseen)
            refine ⟨hls, e', ?_, ht, hel⟩
            unfold firstResolving at he' ⊢
            rw [List.find?_cons_of_neg _
              (by simp [resolvesToOpt, hhref, hne, hres]; exact hlu)]
            exact he'
          · rw [extractLinksAux_cons_new es seen hhref hne hres hseen] at hr
            cases hrec : extractLinksAux base_url es (url :: seen) with
            | error err => rw [hrec] at hr; cases hr
            | ok rest =>
              rw [hrec] at hr
              cases hr
              obtain ⟨h1, h2⟩ := ih (url :: seen) rest hrec
              constructor
              · intro l hl
                rcases List.mem_cons.mp hl with rfl | hl
                · refine ⟨hseen, e, ?_, rfl, rfl⟩
                  unfold firstResolving
                  rw [List.find?_cons_of_pos _
                    (by simp [resolvesToOpt, hhref, hne, hres])]
                · obtain ⟨hls, e', he', ht, hel⟩ := h1 l hl
                  have hlu : ¬url = l.url := fun hq => hls (by simp [hq])
                  refine ⟨fun hm => hls (List.mem_cons_of_mem _ hm), e', ?_, ht, hel⟩
                  unfold firstResolving at he' ⊢
                  rw [List.find?_cons_of_neg _
                    (by simp [resolvesToOpt, hhref, hne, hres]; exact hlu)]
                  exact he'
              · simp only [List.map_cons]
                refine List.nodup_cons.mpr ⟨?_, h2⟩
                intro hmem
                obtain ⟨l, hl, hq⟩ := List.mem_map.mp hmem
                obtain ⟨hls, _⟩ := h1 l hl
                exact hls (by simp [hq])

theorem applyFiltersAux_sublist (search : String → String → Bool)
    (f : LinkFilters) (selectors : Option LinkSelectors) (bd : String) :
    ∀ (ls : List Link) (n : Nat) (r : List Link),
      applyFiltersAux search f selectors bd ls n = .ok r → r.Sublist ls := by
  intro ls
  induction ls with
  | nil =>
    intro n r hr
    cases hr
    exact List.nil_sublist []
  | cons l ls ih =>
    intro n r hr
    cases hpass : link_passes search f selectors bd l with
    | error e => rw [applyFiltersAux_cons_err ls n hpass] at hr; cases hr
    | ok b =>
      cases b with
      | false =>
        rw [applyFiltersAux_cons_skip ls n hpass] at hr
        exact List.Sublist.cons l (ih n r hr)
      | true =>
        by_cases hc : n + 1 ≥ effMaxLinks f
        · rw [applyFiltersAux_cons_cap ls hpass hc] at hr
          cases hr
          exact List.Sublist.cons₂ l (List.nil_sublist ls)
        · rw [applyFiltersAux_cons_accept ls hpass hc] at hr
          cases hrec : applyFiltersAux search f selectors bd ls (n + 1) with
          | error e => rw [hrec] at hr; cases hr
          | ok rest =>
            rw [hrec] at hr
            cases hr
            exact List.Sublist.cons₂ l (ih (n + 1) rest hrec)

end Scraper

/-- C1 (amended): in a successful `discover` run the returned URL list is
duplicate-free — at most one `DiscoveredLink` per resolved URL — and every
returned entry derives from the first selected element resolving to its URL,
carrying that first occurrence's text with empty text replaced by
`'[No title]'`.  (Filters may drop the deduplicated entry entirely, so
"exactly one" holds only for candidates that pass the filter pipeline.) -/
theorem C1_amended (search : String → String → Bool) (doc : List Scraper.Elem)
    (selectors : Option Scraper.LinkSelectors)
    (filters : Option Scraper.LinkFilters) (base_url : String)
    (out : List Scraper.DiscoveredLink)
    (hout : Scraper.discover_links search doc selectors filters base_url = .ok out) :
    (out.map Scraper.DiscoveredLink.url).Nodup ∧
      ∀ d ∈ out, ∃ e,
        Scraper.firstResolving (Scraper.selectedElements doc selectors) base_url d.url = some e ∧
          d.text = (if e.text = "" then "[No title]" else e.text) := by
  unfold Scraper.discover_links at hout
  cases hex : Scraper.extract_links_by_selectors doc selectors base_url with
  | error e => rw [hex] at hout; cases hout
  | ok links =>
    rw [hex] at hout
    replace hout :
        (match Scraper.apply_link_filters search links filters selectors base_url with
          | Except.error e => Except.error e
          | Except.ok filtered =>
            Except.ok (filtered.map (Scraper.buildDiscovered selectors))) =
          Except.ok out := hout
    cases hfil : Scraper.apply_link_filters search links filters selectors base_url with
    | error e => rw [hfil] at hout; cases hout
    | ok filtered =>
      rw [hfil] at hout
      cases hout
      obtain ⟨hspec, hnodup⟩ := Scraper.extractLinksAux_spec base_url
        (Scraper.selectedElements doc selectors) [] links hex
      have hsub : filtered.Sublist links := by
        unfold Scraper.apply_link_filters at hfil
        cases hb : Scraper.pyNetloc base_url with
        | error e => rw [hb] at hfil; cases hfil
        | ok bd =>
          rw [hb] at hfil
          exact Scraper.applyFiltersAux_sublist search (filters.getD {})
            selectors bd links 0 filtered hfil
      constructor
      · have hmap : (filtered.map (Scraper.buildDiscovered selectors)).map
            Scraper.DiscoveredLink.url = filtered.map Scraper.Link.url := by
          rw [List.map_map]
          rfl
        rw [hmap]
        exact hnodup.sublist (hsub.map Scraper.Link.url)
      · intro d hd
        obtain ⟨l, hl, rfl⟩ := List.mem_map.mp hd
        obtain ⟨-, e, he, ht, -⟩ := hspec l (hsub.subset hl)
        refine ⟨e, he, ?_⟩
        show (if l.text = "" then "[No title]" else l.text) =
          (if e.text = "" then "[No title]" else e.text)
        rw [ht]

/-- C1 counterexample to the claim as stated: two link elements resolve to
the same absolute URL, but the single entry `discover` returns carries the
text `'[No title]'`, which is neither the first occurrence's text (empty)
nor the duplicate's. -/
theorem C1_counterexample :
    Scraper.discover_links (fun _ _ => true) [Scraper.aElem1, Scraper.aElem2]
        none none "https://ex.com/" =
      .ok [⟨"https://ex.com/a", "[No title]", "ctx1", [("selector", "default")]⟩] ∧
    Scraper.resolvesToOpt "https://ex.com/" Scraper.aElem1 = some "https://ex.com/a" ∧
    Scraper.resolvesToOpt "https://ex.com/" Scraper.aElem2 = some "https://ex.com/a" ∧
    Scraper.aElem1.text = "" ∧ Scraper.aElem2.text = "X" ∧
    ("[No title]" : String) ≠ "" ∧ ("[No title]" : String) ≠ "X" :=
  ⟨by rfl, by rfl, by rfl, rfl, rfl, by decide, by decide⟩

/-- Witness for the amended C1 at the concrete duplicate-URL document. -/
theorem C1_amended_witness :
    (([⟨"https://ex.com/a", "[No title]", "ctx1", [("selector", "default")]⟩] :
        List Scraper.DiscoveredLink).map Scraper.DiscoveredLink.url).Nodup ∧
      ∀ d ∈ ([⟨"https://ex.com/a", "[No title]", "ctx1", [("selector", "default")]⟩] :
          List Scraper.DiscoveredLink), ∃ e,
        Scraper.firstResolving
            (Scraper.selectedElements [Scraper.aElem1, Scraper.aElem2] none)
            "https://ex.com/" d.url = some e ∧
          d.text = (if e.text = "" then "[No title]" else e.text) :=
  C1_amended (fun _ _ => true) [Scraper.aElem1, Scraper.aElem2] none none
    "https://ex.com/"
    [⟨"https://ex.com/a", "[No title]", "ctx1", [("selector", "default")]⟩]
    (by rfl)

namespace Scraper

/-! ## Lemmas about content processing lengths -/

theorem strLength_mk (l : List Char) : (⟨l⟩ : String).length = l.length := rfl

theorem strLength_data (s : String) : s.length = s.data.length := rfl

theorem strAppend_mk (l m : List Char) :
    (⟨l⟩ : String) ++ (⟨m⟩ : String) = ⟨l ++ m⟩ := rfl

/-- The truncation step of `process_content` (lines 570-572): the final
length never exceeds the cap by more than the 3-character `'...'` marker,
and exceeds the cap only when it is exactly cap + marker. -/
theorem truncate_length (c : String) (m : Nat) :
    (if c.length > m then (⟨c.data.take m⟩ : String) ++ "..." else c).length ≤ m + 3 ∧
    (m < (if c.length > m then (⟨c.data.take m⟩ : String) ++ "..." else c).length →
      (if c.length > m then (⟨c.data.take m⟩ : String) ++ "..." else c).length = m + 3) := by
  by_cases h : c.length > m
  · rw [if_pos h]
    have hlen : ((⟨c.data.take m⟩ : String) ++ "...").length = m + 3 := by
      have h3 : ("..." : String) = ⟨"...".data⟩ := (strMk_data _).symm
      rw [h3, strAppend_mk, strLength_mk, List.length_append, List.length_take]
      have hd3 : ("...".data).length = 3 := rfl
      have hcl : c.length = c.data.length := rfl
      rw [hd3, Nat.min_eq_left (by omega)]
    rw [hlen]
    exact ⟨Nat.le_refl _, fun _ => rfl⟩
  · rw [if_neg h]
    exact ⟨by omega, by omega⟩

theorem process_content_length (content content_format : String)
    (strip_text : String → String) (p : ProcessingConfig) :
    (process_content content content_format strip_text p).length ≤
      p.maxContentLength + 3 ∧
    (p.maxContentLength < (process_content content content_format strip_text p).length →
      (process_content content content_format strip_text p).length =
        p.maxContentLength + 3) :=
  truncate_length _ p.maxContentLength

end Scraper

/-- C7: in every successful scrape, `contentLength` equals the character
length of the returned content (truncation marker included); content is
truncated to `maxContentLength` code points with `'...'` appended, so the
final length is at most `maxContentLength + 3` and exceeds
`maxContentLength` only by the marker's length. -/
theorem C7_length_contract (doc : List Scraper.Elem) (rmd rhtml : String)
    (strip : String → String) (extract : Option Scraper.ExtractConfig)
    (processing : Option Scraper.ProcessingConfig) (o : Scraper.ScrapeOk)
    (h : Scraper.scrape_content doc rmd rhtml strip extract processing = .ok o) :
    o.data.contentLength = o.data.content.length ∧
    o.data.content.length ≤ (processing.getD {}).maxContentLength + 3 ∧
    ((processing.getD {}).maxContentLength < o.data.content.length →
      o.data.content.length = (processing.getD {}).maxContentLength + 3) := by
  simp only [Scraper.scrape_content] at h
  split at h
  · cases h
  · cases h
    exact ⟨rfl, Scraper.process_content_length _ _ _ _⟩

set_option maxRecDepth 8000 in
/-- Witness for C7: 150 characters of content with `maxContentLength = 100`
truncate to 103 characters, marker included. -/
theorem C7_length_contract_witness :
    (103 : Nat) = ((⟨List.replicate 100 'a'⟩ : String) ++ "...").length ∧
    ((⟨List.replicate 100 'a'⟩ : String) ++ "...").length ≤ 100 + 3 ∧
    (100 < ((⟨List.replicate 100 'a'⟩ : String) ++ "...").length →
      ((⟨List.replicate 100 'a'⟩ : String) ++ "...").length = 100 + 3) :=
  C7_length_contract [] Scraper.str150 "" (fun s => s) none (some Scraper.truncPC)
    ⟨⟨none, (⟨List.replicate 100 'a'⟩ : String) ++ "...", 103, "markdown", none, none⟩,
      "default"⟩ (by rfl)

/-- C8: scrape validation succeeds iff the processed content's length is at
least `minContentLength`; on failure the request yields `.error` with an
insufficient-content detail that spells out both the observed length and the
configured minimum. -/
theorem C8_min_length_gate (doc : List Scraper.Elem) (rmd rhtml : String)
    (strip : String → String) (extract : Option Scraper.ExtractConfig)
    (processing : Option Scraper.ProcessingConfig) :
    ((∃ o, Scraper.scrape_content doc rmd rhtml strip extract processing = .ok o) ↔
      (processing.getD {}).minContentLength ≤
        (Scraper.process_content
          (Scraper.rawContent (Scraper.workingDoc doc (extract.bind (·.content)))
            (extract.bind (·.content)) rmd rhtml)
          (Scraper.contentFormat (extract.bind (·.content))) strip
          (processing.getD {})).length) ∧
    ((Scraper.process_content
          (Scraper.rawContent (Scraper.workingDoc doc (extract.bind (·.content)))
            (extract.bind (·.content)) rmd rhtml)
          (Scraper.contentFormat (extract.bind (·.content))) strip
          (processing.getD {})).length < (processing.getD {}).minContentLength →
      Scraper.scrape_content doc rmd rhtml strip extract processing =
        .error (Scraper.insufficientMsg
          (Scraper.process_content
            (Scraper.rawContent (Scraper.workingDoc doc (extract.bind (·.content)))
              (extract.bind (·.content)) rmd rhtml)
            (Scraper.contentFormat (extract.bind (·.content))) strip
            (processing.getD {})).length
          (processing.getD {}).minContentLength)) ∧
    (∀ a b : Nat, ∃ pre mid post : String,
      Scraper.insufficientMsg a b = pre ++ toString a ++ mid ++ toString b ++ post) := by
  refine ⟨?_, ?_, fun a b =>
    ⟨"Insufficient content extracted (", " chars, minimum ", ")", rfl⟩⟩
  · constructor
    · rintro ⟨o, ho⟩
      simp only [Scraper.scrape_content] at ho
      split at ho
      · cases ho
      · omega
    · intro hle
      simp only [Scraper.scrape_content]
      rw [if_neg (by omega)]
      exact ⟨_, rfl⟩
  · intro hlt
    simp only [Scraper.scrape_content]
    rw [if_pos hlt]

set_option maxRecDepth 8000 in
/-- Witness for C8: content of length 199 with `minContentLength = 200`
fails with a detail mentioning 199 and 200; length 200 succeeds. -/
theorem C8_min_length_gate_witness :
    Scraper.scrape_content [] Scraper.str199 "" (fun s => s) none (some Scraper.pc199) =
      .error (Scraper.insufficientMsg 199 200) ∧
    ∃ o, Scraper.scrape_content [] Scraper.str200 "" (fun s => s) none
      (some Scraper.pc199) = .ok o :=
  ⟨(C8_min_length_gate [] Scraper.str199 "" (fun s => s) none (some Scraper.pc199)).2.1
      (by decide),
   (C8_min_length_gate [] Scraper.str200 "" (fun s => s) none (some Scraper.pc199)).1.mpr
      (by decide)⟩

namespace Scraper

/-! ## Lemmas about content extraction -/

/-- With markdown format, the pre-processing content is the whole-page
rendered markdown whether or not a content selector matched. -/
theorem rawContent_markdown (doc2 : List Elem) (ccfg : Option ContentExtraction)
    (rmd rhtml : String) (hfmt : contentFormat ccfg = "markdown") :
    rawContent doc2 ccfg rmd rhtml = rmd := by
  unfold rawContent
  cases hse : contentSelMatch doc2 ccfg with
  | none => simp [hfmt, hse]
  | some p => simp [hfmt, hse]

/-- `scrape_content`'s mapped content is determined by the pre-processing
content string and the format: the matched selector can only influence
`extractionMethod`. -/
theorem scrape_content_map_content (doc : List Elem) (rmd rhtml rc fm : String)
    (strip : String → String) (ex : ExtractConfig)
    (processing : Option ProcessingConfig)
    (hrc : rawContent (workingDoc doc ex.content) ex.content rmd rhtml = rc)
    (hfm : contentFormat ex.content = fm) :
    ((scrape_content doc rmd rhtml strip (some ex) processing).map
      fun o => o.data.content) =
      (if (process_content rc fm strip (processing.getD {})).length <
          (processing.getD {}).minContentLength then
        Except.error (insufficientMsg
          (process_content rc fm strip (processing.getD {})).length
          (processing.getD {}).minContentLength)
      else Except.ok (process_content rc fm strip (processing.getD {}))) := by
  subst hrc hfm
  have hb : ((some ex).bind fun x => x.content) = ex.content := rfl
  simp only [scrape_content, hb]
  by_cases hv :
      (process_content (rawContent (workingDoc doc ex.content) ex.content rmd rhtml)
        (contentFormat ex.content) strip (processing.getD {})).length <
        (processing.getD {}).minContentLength
  · simp only [if_pos hv]
    rfl
  · simp only [if_neg hv]
    rfl

end Scraper

/-- C3: with `format == "markdown"`, when a content selector matches, the
returned content string is identical to the content returned with no content
selectors configured — in both cases it is the (processed) whole-page
rendered markdown supplied by the fetch step, never a per-subtree
conversion. -/
theorem C3_markdown_whole_page (doc : List Scraper.Elem) (rmd rhtml : String)
    (strip : String → String) (tcfg : Option Scraper.TitleExtraction)
    (md : Option (List String)) (cf : Option (List Scraper.CustomField))
    (c : Scraper.ContentExtraction)
    (processing : Option Scraper.ProcessingConfig)
    (hfmt : Scraper.effFormat c = "markdown")
    (_hmatch : (Scraper.contentSelMatch (Scraper.workingDoc doc (some c))
      (some c)).isSome = true) :
    ((Scraper.scrape_content doc rmd rhtml strip (some ⟨tcfg, some c, md, cf⟩)
        processing).map fun o => o.data.content) =
      ((Scraper.scrape_content doc rmd rhtml strip
          (some ⟨tcfg, some ⟨none, c.format, c.removeSelectors⟩, md, cf⟩)
          processing).map fun o => o.data.content) ∧
    (∀ o, Scraper.scrape_content doc rmd rhtml strip (some ⟨tcfg, some c, md, cf⟩)
        processing = .ok o →
      o.data.content = Scraper.process_content rmd "markdown" strip
        (processing.getD {})) := by
  have hfmtA : Scraper.contentFormat (some c) = "markdown" := hfmt
  have hfmtB :
      Scraper.contentFormat (some ⟨none, c.format, c.removeSelectors⟩) = "markdown" := hfmt
  have hA := Scraper.scrape_content_map_content doc rmd rhtml rmd "markdown" strip
    ⟨tcfg, some c, md, cf⟩ processing
    (Scraper.rawContent_markdown _ _ rmd rhtml hfmtA) hfmtA
  have hB := Scraper.scrape_content_map_content doc rmd rhtml rmd "markdown" strip
    ⟨tcfg, some ⟨none, c.format, c.removeSelectors⟩, md, cf⟩ processing
    (Scraper.rawContent_markdown _ _ rmd rhtml hfmtB) hfmtB
  refine ⟨hA.trans hB.symm, ?_⟩
  intro o ho
  rw [ho] at hA
  split at hA
  · cases hA
  · exact Except.ok.inj hA

/-- Witness for C3 at a concrete document: the `article` selector matches,
yet the content is the whole-page markdown, exactly as with no selectors. -/
theorem C3_markdown_whole_page_witness :
    ((Scraper.scrape_content [Scraper.articleElem] "MD BODY" "" (fun s => s)
        (some Scraper.mdExtract) (some Scraper.freePC)).map
      fun o => o.data.content) =
      ((Scraper.scrape_content [Scraper.articleElem] "MD BODY" "" (fun s => s)
          (some ⟨none, some ⟨none, some "markdown", none⟩, none, none⟩)
          (some Scraper.freePC)).map fun o => o.data.content) ∧
    (⟨⟨none, "MD BODY", 7, "markdown", none, none⟩, "css:article"⟩ :
        Scraper.ScrapeOk).data.content =
      Scraper.process_content "MD BODY" "markdown" (fun s => s) Scraper.freePC :=
  ⟨(C3_markdown_whole_page [Scraper.articleElem] "MD BODY" "" (fun s => s) none
      none none Scraper.mdContentCfg (some Scraper.freePC) rfl rfl).1,
   (C3_markdown_whole_page [Scraper.articleElem] "MD BODY" "" (fun s => s) none
      none none Scraper.mdContentCfg (some Scraper.freePC) rfl rfl).2
     ⟨⟨none, "MD BODY", 7, "markdown", none, none⟩, "css:article"⟩ (by rfl)⟩

namespace Scraper

/-! ## Lemmas about title extraction -/

theorem selLoop_cons_some {doc : List Elem} {s : String} {e : Elem}
    (ss : List String) (h : selectOne doc s = some e) :
    selLoop doc (s :: ss) = some (s, e) := by
  simp [selLoop, h]

theorem selLoop_cons_none {doc : List Elem} {s : String}
    (ss : List String) (h : selectOne doc s = none) :
    selLoop doc (s :: ss) = selLoop doc ss := by
  simp [selLoop, h]

theorem selLoop_append (doc : List Elem) :
    ∀ (ss₁ ss₂ : List String), selLoop doc ss₁ = none →
      selLoop doc (ss₁ ++ ss₂) = selLoop doc ss₂ := by
  intro ss₁
  induction ss₁ with
  | nil => intro ss₂ _; rfl
  | cons s ss ih =>
    intro ss₂ h1
    cases hsel : selectOne doc s with
    | some e => rw [selLoop_cons_some ss hsel] at h1; cases h1
    | none =>
      rw [selLoop_cons_none ss hsel] at h1
      rw [List.cons_append, selLoop_cons_none (ss ++ ss₂) hsel]
      exact ih ss₂ h1

/-- `extract_title` with a non-empty custom selector list, unfolded. -/
theorem extract_title_some_sel (doc : List Elem) (s₀ : String)
    (ss : List String) (fb : Option Bool) :
    extract_title doc (some ⟨some (s₀ :: ss), fb⟩) =
      (let r : Option String × String :=
        match selLoop doc (s₀ :: ss) with
        | some (s, e) => (some e.text, "css:" ++ s)
        | none => (none, "default")
      if (r.1 = none ∨ r.1 = some "") ∧ pyTruthy fb then
        match titleFallbackLoop (titleCandidates doc) r.1 with
        | (t', some tag) => (t', "meta:" ++ tag)
        | (t', none) => (t', r.2)
      else r) := rfl

end Scraper

/-- C4 (amended): the title selector loop stops at the first configured
selector that matches *any* element, even one with empty text — the result
does not depend on the selectors after it; a non-empty matched text becomes
the title directly; when the matched text is empty and `fallbackToMeta` is
truthy, the meta fallback chain (first-level heading, then `og:title`, then
the document title element; first candidate with non-empty text wins) decides
the title instead. -/
theorem C4_amended (doc : List Scraper.Elem) (ss₁ ss₂ : List String)
    (s : String) (e : Scraper.Elem) (fb : Option Bool)
    (h₁ : Scraper.selLoop doc ss₁ = none)
    (h₂ : Scraper.selectOne doc s = some e) :
    (Scraper.extract_title doc (some ⟨some (ss₁ ++ s :: ss₂), fb⟩) =
      Scraper.extract_title doc (some ⟨some (ss₁ ++ [s]), fb⟩)) ∧
    (e.text ≠ "" →
      Scraper.extract_title doc (some ⟨some (ss₁ ++ s :: ss₂), fb⟩) =
        (some e.text, "css:" ++ s)) ∧
    (e.text = "" → Scraper.pyTruthy fb = true →
      ∀ t' tag,
        Scraper.titleFallbackLoop (Scraper.titleCandidates doc) (some "") =
          (t', some tag) →
        Scraper.extract_title doc (some ⟨some (ss₁ ++ s :: ss₂), fb⟩) =
          (t', "meta:" ++ tag)) := by
  have hsel : Scraper.selLoop doc (ss₁ ++ s :: ss₂) = some (s, e) := by
    rw [Scraper.selLoop_append doc ss₁ _ h₁, Scraper.selLoop_cons_some ss₂ h₂]
  have hsel' : Scraper.selLoop doc (ss₁ ++ [s]) = some (s, e) := by
    rw [Scraper.selLoop_append doc ss₁ _ h₁, Scraper.selLoop_cons_some [] h₂]
  obtain ⟨a, tl, hcons⟩ : ∃ a tl, ss₁ ++ s :: ss₂ = a :: tl := by
    cases ss₁ <;> exact ⟨_, _, rfl⟩
  obtain ⟨a', tl', hcons'⟩ : ∃ a' tl', ss₁ ++ [s] = a' :: tl' := by
    cases ss₁ <;> exact ⟨_, _, rfl⟩
  rw [hcons] at hsel
  rw [hcons'] at hsel'
  refine ⟨?_, ?_, ?_⟩
  · rw [hcons, hcons']
    simp only [Scraper.extract_title_some_sel, hsel, hsel']
  · intro het
    rw [hcons]
    simp only [Scraper.extract_title_some_sel, hsel]
    rw [if_neg]
    rintro ⟨hab, -⟩
    rcases hab with hab | hab
    · cases hab
    · exact het (Option.some.inj hab)
  · intro het hfb t' tag hfbl
    rw [hcons]
    simp only [Scraper.extract_title_some_sel, hsel, het]
    rw [if_pos ⟨Or.inr trivial, hfb⟩, hfbl]

/-- C4 counterexample to the claim as stated: with selectors
`["s1", "s2"]` where `s1` matches an empty-text element and `s2` matches an
element with text `"Good"`, the chain's first non-empty result would be
`"Good"`, but the code breaks at `s1`, skips `s2`, and falls back to the
`h1` heading `"Heading"`. -/
theorem C4_counterexample :
    Scraper.extract_title Scraper.titleDoc (some ⟨some ["s1", "s2"], some true⟩) =
      (some "Heading", "meta:h1") ∧
    Scraper.selectOne Scraper.titleDoc "s2" = some Scraper.selGoodElem ∧
    Scraper.selGoodElem.text = "Good" ∧ Scraper.selEmptyElem.text = "" ∧
    (some "Heading" : Option String) ≠ some "Good" :=
  ⟨by rfl, by rfl, rfl, rfl, by decide⟩

/-- Witness for the amended C4 at the concrete document: the empty-text
match on `s1` hands the title to the meta fallback, which returns the `h1`
text. -/
theorem C4_amended_witness :
    Scraper.extract_title Scraper.titleDoc (some ⟨some ["s1", "s2"], some true⟩) =
      (some "Heading", "meta:h1") :=
  (C4_amended Scraper.titleDoc [] ["s2"] "s1" Scraper.selEmptyElem (some true)
    rfl rfl).2.2 rfl rfl (some "Heading") "h1" rfl

namespace Scraper

/-! ## Lemmas about the working (post-removal) document -/

theorem head?_filter_mem {p : Elem → Bool} {doc : List Elem} {e : Elem}
    (h : (doc.filter p).head? = some e) : e ∈ doc ∧ p e = true := by
  have hmem : e ∈ doc.filter p := by
    cases hf : doc.filter p with
    | nil => rw [hf] at h; cases h
    | cons a l =>
      rw [hf] at h
      cases h
      exact List.mem_cons_self _ _
  exact List.mem_filter.mp hmem

theorem selectOne_mem {doc : List Elem} {s : String} {e : Elem}
    (h : selectOne doc s = some e) : e ∈ doc ∧ e.sels.contains s = true :=
  head?_filter_mem h

theorem findMetaName_mem {doc : List Elem} {v : String} {e : Elem}
    (h : findMetaName doc v = some e) : e ∈ doc ∧ e.tag = "meta" := by
  obtain ⟨hmem, hp⟩ := head?_filter_mem h
  rw [Bool.and_eq_true] at hp
  exact ⟨hmem, eq_of_beq hp.1⟩

theorem findMetaProp_mem {doc : List Elem} {v : String} {e : Elem}
    (h : findMetaProp doc v = some e) : e ∈ doc ∧ e.tag = "meta" := by
  obtain ⟨hmem, hp⟩ := head?_filter_mem h
  rw [Bool.and_eq_true] at hp
  exact ⟨hmem, eq_of_beq hp.1⟩

theorem workingDoc_subset {doc : List Elem} {ccfg : Option ContentExtraction}
    {e : Elem} (he : e ∈ workingDoc doc ccfg) : e ∈ doc := by
  cases ccfg with
  | none => exact he
  | some c =>
    replace he : e ∈ (if (optList c.removeSelectors).isEmpty then doc
      else removeBySelectors doc (optList c.removeSelectors)) := he
    by_cases hemp : (optList c.removeSelectors).isEmpty
    · rw [if_pos hemp] at he; exact he
    · rw [if_neg hemp] at he
      exact (List.mem_filter.mp he).1

theorem workingDoc_not_removed {doc : List Elem} {c : ContentExtraction}
    {e : Elem} (he : e ∈ workingDoc doc (some c)) :
    ∀ s ∈ optList c.removeSelectors, e.sels.contains s = false := by
  intro s hs
  replace he : e ∈ (if (optList c.removeSelectors).isEmpty then doc
    else removeBySelectors doc (optList c.removeSelectors)) := he
  by_cases hemp : (optList c.removeSelectors).isEmpty
  · rw [List.isEmpty_iff] at hemp
    rw [hemp] at hs
    cases hs
  · rw [if_neg hemp] at he
    have hp := (List.mem_filter.mp he).2
    rw [Bool.not_eq_eq_eq_not, Bool.not_true, List.any_eq_false] at hp
    exact Bool.eq_false_iff.mpr (hp s hs)

theorem extract_metadata_mem {doc2 : List Elem} {names : List String}
    {kv : String × String} (h : kv ∈ extract_metadata doc2 names) :
    ∃ e, e ∈ doc2 ∧ e.tag = "meta" ∧ kv.2 = getAttrD e "content" "" := by
  obtain ⟨name, _, hsome⟩ := List.mem_filterMap.mp h
  cases hn : findMetaName doc2 name with
  | some mt =>
    rw [hn] at hsome
    cases hsome
    obtain ⟨hmem, htag⟩ := findMetaName_mem hn
    exact ⟨mt, hmem, htag, rfl⟩
  | none =>
    rw [hn] at hsome
    cases hp : findMetaProp doc2 ("og:" ++ name) with
    | some mt =>
      rw [hp] at hsome
      cases hsome
      obtain ⟨hmem, htag⟩ := findMetaProp_mem hp
      exact ⟨mt, hmem, htag, rfl⟩
    | none => rw [hp] at hsome; cases hsome

theorem extract_custom_fields_mem {doc2 : List Elem}
    {fields : List CustomField} {kv : String × String}
    (h : kv ∈ extract_custom_fields doc2 fields) :
    ∃ e, e ∈ doc2 ∧ (kv.2 = e.text ∨ ∃ a, kv.2 = getAttrD e a "") := by
  obtain ⟨field, _, hsome⟩ := List.mem_filterMap.mp h
  cases hsel : selectOne doc2 field.selector with
  | some e =>
    rw [hsel] at hsome
    cases hsome
    refine ⟨e, (selectOne_mem hsel).1, ?_⟩
    cases hattr : field.«attribute» with
    | none => exact Or.inl rfl
    | some a =>
      by_cases ha : a = ""
      · subst ha
        simp only [hattr, if_pos rfl]
        exact Or.inl rfl
      · simp only [hattr, if_neg ha]
        exact Or.inr ⟨a, rfl⟩
  | none => rw [hsel] at hsome; cases hsome

end Scraper

/-- C10 (amended): within one scrape request, `removeSelectors` removal is
applied after title extraction and before metadata and custom-field
extraction: the title is computed from the original document (a removed
element can still supply it), while every metadata or custom-field value is
read from an element of the working document, which matches none of the
remove selectors.  (The returned *content*, however, can still contain a
removed element's text: whole-page markdown — and default raw HTML — content
comes from the fetch result, which predates the removal; see the
counterexample.) -/
theorem C10_removal_frame (doc : List Scraper.Elem) (rmd rhtml : String)
    (strip : String → String) (tcfg : Option Scraper.TitleExtraction)
    (md : Option (List String)) (cf : Option (List Scraper.CustomField))
    (c : Scraper.ContentExtraction)
    (processing : Option Scraper.ProcessingConfig) (o : Scraper.ScrapeOk)
    (h : Scraper.scrape_content doc rmd rhtml strip (some ⟨tcfg, some c, md, cf⟩)
      processing = .ok o) :
    o.data.title = (Scraper.extract_title doc tcfg).1 ∧
    (∀ kv ∈ o.data.metadata.getD [], ∃ e, e ∈ doc ∧
      (∀ s ∈ Scraper.optList c.removeSelectors, e.sels.contains s = false) ∧
      e.tag = "meta" ∧ kv.2 = Scraper.getAttrD e "content" "") ∧
    (∀ kv ∈ o.data.customFields.getD [], ∃ e, e ∈ doc ∧
      (∀ s ∈ Scraper.optList c.removeSelectors, e.sels.contains s = false) ∧
      (kv.2 = e.text ∨ ∃ a, kv.2 = Scraper.getAttrD e a "")) := by
  simp only [Scraper.scrape_content] at h
  split at h
  · cases h
  · cases h
    refine ⟨rfl, ?_, ?_⟩
    · intro kv hkv
      by_cases hemp :
          (Scraper.extract_metadata
            (Scraper.workingDoc doc ((some (⟨tcfg, some c, md, cf⟩ : Scraper.ExtractConfig)).bind
              fun x => x.content))
            (Scraper.optList (⟨tcfg, some c, md, cf⟩ : Scraper.ExtractConfig).metadata)).isEmpty
      · rw [if_pos hemp] at hkv
        cases hkv
      · rw [if_neg hemp] at hkv
        replace hkv : kv ∈ Scraper.extract_metadata (Scraper.workingDoc doc (some c))
          (Scraper.optList md) := hkv
        obtain ⟨e, hmem, htag, hval⟩ := Scraper.extract_metadata_mem hkv
        exact ⟨e, Scraper.workingDoc_subset hmem,
          Scraper.workingDoc_not_removed hmem, htag, hval⟩
    · intro kv hkv
      by_cases hemp :
          (Scraper.extract_custom_fields
            (Scraper.workingDoc doc ((some (⟨tcfg, some c, md, cf⟩ : Scraper.ExtractConfig)).bind
              fun x => x.content))
            (Scraper.optList (⟨tcfg, some c, md, cf⟩ : Scraper.ExtractConfig).customFields)).isEmpty
      · rw [if_pos hemp] at hkv
        cases hkv
      · rw [if_neg hemp] at hkv
        replace hkv : kv ∈ Scraper.extract_custom_fields
          (Scraper.workingDoc doc (some c)) (Scraper.optList cf) := hkv
        obtain ⟨e, hmem, hval⟩ := Scraper.extract_custom_fields_mem hkv
        exact ⟨e, Scraper.workingDoc_subset hmem,
          Scraper.workingDoc_not_removed hmem, hval⟩

/-- C10 counterexample to the claim as stated: with `format = "markdown"`
(the default), the returned content is the whole-page rendered markdown from
the fetch step, so the text of the element removed by `removeSelectors`
still appears in the returned content. -/
theorem C10_counterexample :
    Scraper.scrape_content [Scraper.adElem] "Article BUY NOW rest" "" (fun s => s)
        (some Scraper.adExtract) (some Scraper.freePC) =
      .ok ⟨⟨none, "Article BUY NOW rest", 20, "markdown", none, none⟩, "default"⟩ ∧
    Scraper.adElem.sels.contains ".ad" = true ∧
    Scraper.optList Scraper.adContentCfg.removeSelectors = [".ad"] ∧
    Scraper.adElem.text = "BUY NOW" ∧
    ∃ u v, ("Article BUY NOW rest" : String) = u ++ Scraper.adElem.text ++ v :=
  ⟨by rfl, rfl, rfl, rfl, ⟨"Article ", " rest", by rfl⟩⟩

/-- Witness for the amended C10 at the ad-removal document. -/
theorem C10_removal_frame_witness :
    (⟨⟨none, "Article BUY NOW rest", 20, "markdown", none, none⟩, "default"⟩ :
        Scraper.ScrapeOk).data.title =
      (Scraper.extract_title [Scraper.adElem] none).1 :=
  (C10_removal_frame [Scraper.adElem] "Article BUY NOW rest" "" (fun s => s)
    none none none Scraper.adContentCfg (some Scraper.freePC)
    ⟨⟨none, "Article BUY NOW rest", 20, "markdown", none, none⟩, "default"⟩
    (by rfl)).1

/-- C6: when `includeExternal` is falsy (the default), every link returned by
`discover` has a URL whose netloc — hence host — equals that of the base
(request) URL; links on any other domain are rejected. -/
theorem C6_domain_invariant (search : String → String → Bool)
    (doc : List Scraper.Elem) (selectors : Option Scraper.LinkSelectors)
    (filters : Option Scraper.LinkFilters) (base_url : String)
    (out : List Scraper.DiscoveredLink)
    (hext : ¬(filters.getD {}).includeExternal = some true)
    (hout : Scraper.discover_links search doc selectors filters base_url = .ok out) :
    ∃ bd, Scraper.pyNetloc base_url = .ok bd ∧
      ∀ d ∈ out, ∃ nl, Scraper.pyNetloc d.url = .ok nl ∧ nl = bd ∧
        Scraper.hostOfNetloc nl.data = Scraper.hostOfNetloc bd.data := by
  unfold Scraper.discover_links at hout
  cases hex : Scraper.extract_links_by_selectors doc selectors base_url with
  | error e => rw [hex] at hout; cases hout
  | ok links =>
    rw [hex] at hout
    replace hout :
        (match Scraper.apply_link_filters search links filters selectors base_url with
          | Except.error e => Except.error e
          | Except.ok filtered =>
            Except.ok (filtered.map (Scraper.buildDiscovered selectors))) =
          Except.ok out := hout
    cases hfil : Scraper.apply_link_filters search links filters selectors base_url with
    | error e => rw [hfil] at hout; cases hout
    | ok filtered =>
      rw [hfil] at hout
      cases hout
      unfold Scraper.apply_link_filters at hfil
      cases hb : Scraper.pyNetloc base_url with
      | error e => rw [hb] at hfil; cases hfil
      | ok bd =>
        rw [hb] at hfil
        refine ⟨bd, rfl, ?_⟩
        intro d hd
        obtain ⟨l, hl, rfl⟩ := List.mem_map.mp hd
        have hpass := Scraper.applyFiltersAux_mem search (filters.getD {})
          selectors bd links 0 filtered hfil l hl
        exact ⟨bd, Scraper.link_passes_external hext hpass, rfl, rfl⟩

/-- Witness for C6: the spec §8 scenario — an internal and an external link,
default filters. -/
theorem C6_domain_invariant_witness :
    ∃ bd, Scraper.pyNetloc "https://news.example/section" = .ok bd ∧
      ∀ d ∈ [Scraper.newsDLink], ∃ nl, Scraper.pyNetloc d.url = .ok nl ∧ nl = bd ∧
        Scraper.hostOfNetloc nl.data = Scraper.hostOfNetloc bd.data :=
  C6_domain_invariant (fun _ _ => true) Scraper.newsDoc none none
    "https://news.example/section" [Scraper.newsDLink] (by decide) (by rfl)

/-- C9: whitespace normalization (collapse runs of whitespace to single
spaces and trim the ends) is idempotent: applying it twice produces the same
string as applying it once. -/
theorem C9_normalize_whitespace_idempotent (s : String) :
    Scraper.normalize_whitespace (Scraper.normalize_whitespace s)
      = Scraper.normalize_whitespace s := by
  unfold Scraper.normalize_whitespace
  have hgood := Scraper.pySplitAux_good Scraper.isPySpace s.data [] (by simp)
  have hsp : Scraper.isPySpace ' ' = true := by decide
  have := Scraper.pySplit_joinWords Scraper.isPySpace hsp
      (Scraper.pySplit Scraper.isPySpace s.data) hgood
  simp only [String.data]
  rw [this]
